import Mathlib

/-
  Shallow embedding of the LeapOCR Python SDK core
  (src/leapocr/types.py, src/leapocr/exceptions.py, src/leapocr/client.py,
   src/leapocr/services/ocr.py), together with theorems settling the
  specification claims about it.

  Modelling conventions:
  * Python floats used as wall-clock durations are modelled as rationals.
  * Python `None`-able fields are `Option`s; Python truthiness of the
    relevant types is modelled explicitly (`none` and empty string / empty
    dict / empty list / 0 are falsy).
  * A field annotated `JobStatus | str` is modelled as `Sum JobStatus String`:
    `.inl` is an enum member, `.inr` a raw string.
  * Raising an exception is modelled as returning `Except.error`.
-/

namespace LeapOCR

/-- The JobStatus enumeration from types.py (a str-valued enum). -/
inductive JobStatus
  | pending
  | processing
  | completed
  | failed
  | cancelled
deriving DecidableEq, Repr

/-- The string value of each JobStatus member. -/
def JobStatus.value : JobStatus → String
  | .pending => "pending"
  | .processing => "processing"
  | .completed => "completed"
  | .failed => "failed"
  | .cancelled => "cancelled"

/-- Python enum value lookup: JobStatus(s) succeeds exactly when s is the
value string of a member. -/
def statusOfValue : String → Option JobStatus
  | "pending" => some .pending
  | "processing" => some .processing
  | "completed" => some .completed
  | "failed" => some .failed
  | "cancelled" => some .cancelled
  | _ => none

/-- A Python value of type JobStatus | str. -/
abbrev PyStatus := Sum JobStatus String

/-- Python str.lower(), modelled character by character (structurally, so
that concrete inputs evaluate by kernel reduction). -/
def pyToLower (s : String) : String := ⟨s.data.map Char.toLower⟩

/-- Python errors relevant to the embedded code. -/
inductive PyErr
  | typeError (msg : String)
  | valueError (msg : String)
deriving DecidableEq, Repr

/-- The string representation of a Python error, as interpolated by
f-strings in the source. -/
def PyErr.reprStr : PyErr → String
  | .typeError m => m
  | .valueError m => m

/-- Calling the enum class with a single positional value argument:
JobStatus(s). Raises ValueError when s is not a member value. -/
def jobStatusCall (s : String) : Except PyErr JobStatus :=
  match statusOfValue s with
  | some e => .ok e
  | none => .error (.valueError (s ++ " is not a valid JobStatus"))

/-- The keyword parameter names accepted by a Python enum class call
(EnumMeta call: value, names, module, qualname, type, start). -/
def enumCallAcceptedKw : List String :=
  ["value", "names", "module", "qualname", "type", "start"]

/-- A minimal model of a Python value passed as a keyword argument. -/
inductive PyVal
  | str (s : String)
  | int (n : Int)
  | float (q : ℚ)
  | noneV
deriving DecidableEq, Repr

/-- Calling the JobStatus enum class with keyword arguments, as
get_job_status in client.py does. A keyword that the enum class call does
not accept, or a missing positional value, raises TypeError. -/
def jobStatusEnumCallKw (kwargs : List (String × PyVal)) : Except PyErr JobStatus :=
  if kwargs.any (fun kv => !(enumCallAcceptedKw.contains kv.1)) then
    .error (.typeError "EnumMeta.__call__ got an unexpected keyword argument")
  else
    match kwargs.lookup "value" with
    | some (.str s) => jobStatusCall s
    | _ => .error (.typeError "EnumMeta.__call__ missing required argument: value")

/-- The status coercion performed by the __post_init__ methods of Job,
JobStatusInfo and JobResult in types.py: a string is lowercased and looked
up in the enum; on ValueError the raw string is kept. An enum member (also
an instance of str in Python) round-trips through the same path unchanged. -/
def coerceStatus : PyStatus → PyStatus
  | .inl e =>
    match jobStatusCall (pyToLower e.value) with
    | .ok v => .inl v
    | .error _ => .inl e
  | .inr s =>
    match jobStatusCall (pyToLower s) with
    | .ok v => .inl v
    | .error _ => .inr s

/-- The Job dataclass from types.py. -/
structure Job where
  id : String
  status : PyStatus
  created_at : Option String
deriving DecidableEq, Repr

/-- Constructing a Job runs __post_init__, coercing the status field. -/
def Job.make (id : String) (status : PyStatus) (created_at : Option String) : Job :=
  { id := id, status := coerceStatus status, created_at := created_at }

/-- The JobStatusInfo dataclass from types.py. -/
structure JobStatusInfo where
  job_id : String
  status : PyStatus
  progress : Option ℚ
  error_message : Option String
  created_at : Option String
  updated_at : Option String
deriving DecidableEq, Repr

/-- Constructing a JobStatusInfo runs __post_init__. -/
def JobStatusInfo.make (job_id : String) (status : PyStatus) (progress : Option ℚ)
    (error_message : Option String) (created_at : Option String)
    (updated_at : Option String) : JobStatusInfo :=
  { job_id := job_id, status := coerceStatus status, progress := progress,
    error_message := error_message, created_at := created_at, updated_at := updated_at }

/-- A page record: a Python dict, modelled as an association list. -/
abbrev PageDict := List (String × Int)

/-- The JobResult dataclass from types.py. -/
structure JobResult where
  job_id : String
  status : PyStatus
  data : Option (List (String × Int))
  pages : Option (List PageDict)
  credits_used : Option Int
  processing_time : Option ℚ
  error_message : Option String
  created_at : Option String
  completed_at : Option String
deriving DecidableEq, Repr

/-- Constructing a JobResult runs __post_init__. -/
def JobResult.make (job_id : String) (status : PyStatus)
    (data : Option (List (String × Int))) (pages : Option (List PageDict))
    (credits_used : Option Int) (processing_time : Option ℚ)
    (error_message : Option String) (created_at : Option String)
    (completed_at : Option String) : JobResult :=
  { job_id := job_id, status := coerceStatus status, data := data, pages := pages,
    credits_used := credits_used, processing_time := processing_time,
    error_message := error_message, created_at := created_at,
    completed_at := completed_at }

/-- Python truthiness of an optional string: None and the empty string are
falsy. -/
def pyTruthyOptStr : Option String → Bool
  | none => false
  | some s => !(s = "")

/-- Python truthiness of an optional dict: None and the empty dict are falsy. -/
def pyTruthyDict : Option (List (String × Int)) → Bool
  | none => false
  | some d => !d.isEmpty

/-- Python truthiness of an optional list: None and the empty list are falsy. -/
def pyTruthyPages : Option (List PageDict) → Bool
  | none => false
  | some l => !l.isEmpty

/-- Python equality between a JobStatus-or-string value and an enum member.
JobStatus mixes in str, so a raw string compares equal to a member exactly
when it equals the member's value string. -/
def pyStatusEqStatus (s : PyStatus) (j : JobStatus) : Bool :=
  match s with
  | .inl a => a = j
  | .inr raw => raw = j.value

/-- Python equality between a JobStatus-or-string value and a raw string
(used by the terminal-status membership test in the polling loops). -/
def pyStatusEqStr (s : PyStatus) (t : String) : Bool :=
  match s with
  | .inl a => a.value = t
  | .inr raw => raw = t

/-- The terminal-status membership test from wait_for_result:
status.status in ["completed", "failed", "cancelled"]. -/
def statusInTerminalList (s : PyStatus) : Bool :=
  ["completed", "failed", "cancelled"].any (fun t => pyStatusEqStr s t)

/-
  Error taxonomy (exceptions.py). Each constructor models one exception
  class; all of them are subclasses of LeapOCRClientError in the source,
  so every value of ErrKind "is a" LeapOCRClientError.
-/

/-- The kind of a LeapOCR error: one constructor per exception class of
exceptions.py, with client the generic LeapOCRClientError base class. -/
inductive ErrKind
  | client
  | server
  | authentication
  | validation
  | rateLimit
  | timeout
  | notFound
  | upload
  | job
  | configuration
deriving DecidableEq, Repr

/-- The is_retryable method: the base class returns False and each
subclass overrides it with the constant recorded in exceptions.py. -/
def ErrKind.is_retryable : ErrKind → Bool
  | .client => false
  | .server => true
  | .authentication => false
  | .validation => false
  | .rateLimit => true
  | .timeout => true
  | .notFound => false
  | .upload => true
  | .job => false
  | .configuration => false

/-- A raised LeapOCR error: its kind together with its message. -/
abbrev ClientError := ErrKind × String

/-- The data carried by a transport-layer ApiException: its optional
numeric status attribute, its body, and its str() representation. -/
structure ApiErrorInfo where
  status : Option Int
  body : String
  reprStr : String
deriving DecidableEq, Repr

/-- Python truthiness of the optional integer status code: None and 0 are
falsy. -/
def pyTruthyOptInt : Option Int → Bool
  | none => false
  | some n => !(n = 0)

/-- LeapOCRClient._handle_api_error from client.py: converts a transport
exception into the typed error it raises. -/
def handle_api_error (e : ApiErrorInfo) : ClientError :=
  if e.status = some 401 then
    (.authentication, "Invalid API key or authentication failed")
  else if e.status = some 403 then
    (.authentication, "Access forbidden - check API key permissions")
  else if e.status = some 404 then
    (.notFound, "Resource not found")
  else if e.status = some 422 then
    (.validation, "Validation error: " ++ e.body)
  else if e.status = some 429 then
    (.rateLimit, "Rate limit exceeded")
  else if pyTruthyOptInt e.status &&
      ((e.status.getD 0) ≥ 500 && (e.status.getD 0) < 600) then
    (.server, "Server error: " ++ e.body)
  else
    (.client, "API error: " ++ e.reprStr)

/-- LeapOCRExceptionMapper.map_exception from exceptions.py: maps a
transport exception to the typed error value it returns. -/
def map_exception (e : ApiErrorInfo) : ClientError :=
  match e.status with
  | some c =>
    if !(c = 0) then
      if c = 401 then (.authentication, "Invalid API key or authentication failed")
      else if c = 403 then (.authentication, "Access forbidden - check API key permissions")
      else if c = 404 then (.notFound, "Resource not found")
      else if c = 422 then (.validation, "Validation error: " ++ e.body)
      else if c = 429 then (.rateLimit, "Rate limit exceeded")
      else if 500 ≤ c ∧ c < 600 then (.server, "Server error: " ++ e.body)
      else (.client, e.reprStr)
    else (.client, e.reprStr)
  | none => (.client, e.reprStr)

/-
  get_job_status (client.py). On a successful transport reply it attempts
  to build its return value by calling the JobStatus enum class with the
  keyword arguments job_id, status, progress, error_message, created_at,
  updated_at; the generic except-Exception handler wraps the resulting
  TypeError in a LeapOCRClientError. On an ApiException it re-raises the
  typed error from _handle_api_error (raised inside the except-ApiException
  handler, hence not re-caught by the generic handler).
-/

/-- The payload of a successful get_job_status transport reply. -/
structure StatusData where
  job_id : String
  status : String
  progress : Option ℚ
  error_message : Option String
  created_at : Option String
  updated_at : Option String
deriving DecidableEq, Repr

/-- An optional Python value passed as a keyword argument. -/
def optVal (f : α → PyVal) : Option α → PyVal
  | none => .noneV
  | some a => f a

/-- LeapOCRClient.get_job_status from client.py, as a function of the
transport reply for the given job id. -/
def get_job_status (transport : Except ApiErrorInfo StatusData) :
    Except ClientError JobStatus :=
  match transport with
  | .error e => .error (handle_api_error e)
  | .ok d =>
    match jobStatusEnumCallKw
        [("job_id", .str d.job_id), ("status", .str d.status),
         ("progress", optVal .float d.progress),
         ("error_message", optVal .str d.error_message),
         ("created_at", optVal .str d.created_at),
         ("updated_at", optVal .str d.updated_at)] with
    | .ok v => .ok v
    | .error pe =>
      .error (.client, "Unexpected error getting job status: " ++ pe.reprStr)

/-- The payload of a successful get_job_result transport reply. -/
structure ResultData where
  job_id : String
  status : String
  data : Option (List (String × Int))
  pages : Option (List PageDict)
  credits_used : Option Int
  processing_time : Option ℚ
  error_message : Option String
  created_at : Option String
  completed_at : Option String
deriving DecidableEq, Repr

/-- LeapOCRClient.get_job_result from client.py, as a function of the
transport reply for the given job id. -/
def get_job_result (transport : Except ApiErrorInfo ResultData) :
    Except ClientError JobResult :=
  match transport with
  | .error e => .error (handle_api_error e)
  | .ok d =>
    .ok (JobResult.make d.job_id (.inr d.status) d.data d.pages d.credits_used
      d.processing_time d.error_message d.created_at d.completed_at)

/-
  The polling loops wait_for_result / wait_for_result_async (client.py).
  The transport is abstracted as oracles: statusQ n is what the n-th
  status query returns (or the error it raises), resultQ is what the
  single result query returns. Wall-clock time advances only during the
  sleep between iterations, by poll_interval each time; elapsed is the
  time already spent. The loop is unrolled on explicit fuel; outOfFuel
  marks a run that has not terminated within the given fuel.
  The event trace records every status query, every sleep, the final
  result query, and would record a remote cancellation request if the
  code ever issued one (it never does).
-/

/-- An observable event of one polling run. -/
inductive PollEv
  | query (n : Nat)
  | sleepEv
  | resultQuery
  | cancelJob
deriving DecidableEq, Repr

/-- The outcome of one polling run. -/
inductive PollOutcome
  | ok (r : JobResult)
  | err (e : ClientError)
  | timeoutErr (job_id : String) (t : ℚ)
  | outOfFuel
deriving DecidableEq, Repr

/-- The deadline test of wait_for_result: `if timeout and elapsed > timeout`.
Python truthiness makes both None and 0.0 skip the test. -/
def timeoutCheck (timeout : Option ℚ) (elapsed : ℚ) : Bool :=
  match timeout with
  | none => false
  | some t => !(t = 0) && decide (elapsed > t)

/-- The loop body of LeapOCRClient.wait_for_result, at iteration n with
the given elapsed wall-clock time. -/
def pollAux (statusQ : Nat → Except ClientError JobStatusInfo)
    (resultQ : Except ClientError JobResult) (job_id : String)
    (timeout : Option ℚ) (poll_interval : ℚ) :
    Nat → Nat → ℚ → List PollEv × PollOutcome
  | 0, _, _ => ([], .outOfFuel)
  | fuel + 1, n, elapsed =>
    match statusQ n with
    | .error e => ([.query n], .err e)
    | .ok st =>
      if statusInTerminalList st.status then
        match resultQ with
        | .error e => ([.query n, .resultQuery], .err e)
        | .ok r => ([.query n, .resultQuery], .ok r)
      else if timeoutCheck timeout elapsed then
        ([.query n], .timeoutErr job_id (timeout.getD 0))
      else
        let rest := pollAux statusQ resultQ job_id timeout poll_interval fuel
          (n + 1) (elapsed + poll_interval)
        (.query n :: .sleepEv :: rest.1, rest.2)

/-- The loop body of LeapOCRClient.wait_for_result_async. The source is
the same loop with asyncio event-loop time and a cooperative sleep; it is
transcribed separately so that the equivalence of the two disciplines is a
theorem about two definitions. -/
def pollAuxAsync (statusQ : Nat → Except ClientError JobStatusInfo)
    (resultQ : Except ClientError JobResult) (job_id : String)
    (timeout : Option ℚ) (poll_interval : ℚ) :
    Nat → Nat → ℚ → List PollEv × PollOutcome
  | 0, _, _ => ([], .outOfFuel)
  | fuel + 1, n, elapsed =>
    match statusQ n with
    | .error e => ([.query n], .err e)
    | .ok st =>
      if statusInTerminalList st.status then
        match resultQ with
        | .error e => ([.query n, .resultQuery], .err e)
        | .ok r => ([.query n, .resultQuery], .ok r)
      else if timeoutCheck timeout elapsed then
        ([.query n], .timeoutErr job_id (timeout.getD 0))
      else
        let rest := pollAuxAsync statusQ resultQ job_id timeout poll_interval fuel
          (n + 1) (elapsed + poll_interval)
        (.query n :: .sleepEv :: rest.1, rest.2)

/-- LeapOCRClient.wait_for_result: the polling loop started at iteration 0
with zero elapsed time. -/
def wait_for_result (statusQ : Nat → Except ClientError JobStatusInfo)
    (resultQ : Except ClientError JobResult) (job_id : String)
    (timeout : Option ℚ) (poll_interval : ℚ) (fuel : Nat) :
    List PollEv × PollOutcome :=
  pollAux statusQ resultQ job_id timeout poll_interval fuel 0 0

/-- LeapOCRClient.wait_for_result_async: the cooperative polling loop
started at iteration 0 with zero elapsed time. -/
def wait_for_result_async (statusQ : Nat → Except ClientError JobStatusInfo)
    (resultQ : Except ClientError JobResult) (job_id : String)
    (timeout : Option ℚ) (poll_interval : ℚ) (fuel : Nat) :
    List PollEv × PollOutcome :=
  pollAuxAsync statusQ resultQ job_id timeout poll_interval fuel 0 0

/-- OCRService.validate_job_result from services/ocr.py. -/
def validate_job_result (r : JobResult) : Bool :=
  if !(pyStatusEqStatus r.status .completed) then false
  else if pyTruthyOptStr r.error_message then false
  else if !(pyTruthyDict r.data) && !(pyTruthyPages r.pages) then false
  else true

/-
  Batch orchestration (services/ocr.py). Per-item processing is abstracted
  as oracles: for the cooperative variant each item's full processing
  outcome (the value of process_document_async, or the message of the
  exception it raised); for the thread/group variant each item carries the
  outcome of its submission (process_document with wait_for_result=False)
  and the outcome of waiting for its job (wait_for_result on its job id).
-/

/-- The value a batch item produces: a Job handle (submission only) or a
JobResult (after a full wait). -/
abbrev BatchOut := Sum Job JobResult

/-- The error-to-result conversion loop at the end of
OCRService.batch_process_async: an exception at position i is replaced by
a failed JobResult with the synthetic job id "error_" followed by the
index i (the source f-string f"error_{i}"). -/
def fixupBatchResults : Nat → List (Except String BatchOut) → List BatchOut
  | _, [] => []
  | i, o :: rest =>
    (match o with
     | .ok v => v
     | .error msg =>
       .inr (JobResult.make ("error_" ++ toString i) (.inl .failed)
         none none none none (some msg) none none)) :: fixupBatchResults (i + 1) rest

/-- OCRService.batch_process_async as a function of the per-item outcomes
gathered (in input order, as asyncio.gather guarantees) with exceptions
captured via return_exceptions=True. -/
def batch_process_async (outcomes : List (Except String BatchOut)) : List BatchOut :=
  fixupBatchResults 0 outcomes

/-- The transport behavior of one item of the thread/group batch variant:
what its submission returns, and what waiting for its job returns. -/
structure SyncItem where
  submit : Except ClientError Job
  wait : Except ClientError JobResult
deriving Repr

/-- An observable event of a thread/group batch run. -/
inductive BatchEv
  | submitEv (it : SyncItem)
  | waitEv (it : SyncItem)
deriving Repr

/-- The submission loop over one group of OCRService.batch_process: each
item is submitted in order; an exception aborts the whole batch call. -/
def submitChunk : List SyncItem → List BatchEv × Except ClientError (List Job)
  | [] => ([], .ok [])
  | it :: rest =>
    match it.submit with
    | .error e => ([.submitEv it], .error e)
    | .ok j =>
      let r := submitChunk rest
      (.submitEv it :: r.1, r.2.map (fun l => j :: l))

/-- The wait loop over one group of OCRService.batch_process: each
submitted job of the group is waited for in order; an exception aborts the
whole batch call. -/
def waitChunk : List SyncItem → List BatchEv × Except ClientError (List JobResult)
  | [] => ([], .ok [])
  | it :: rest =>
    match it.wait with
    | .error e => ([.waitEv it], .error e)
    | .ok res =>
      let r := waitChunk rest
      (.waitEv it :: r.1, r.2.map (fun l => res :: l))

/-- The Python slicing sources[i : i + cap] stepped by cap: consecutive
groups of size at most cap (meaningful for cap ≥ 1, as in the source where
cap is max_concurrent). -/
def chunkList (cap : Nat) : List α → List (List α)
  | [] => []
  | a :: l => (a :: l.take (cap - 1)) :: chunkList cap (l.drop (cap - 1))
termination_by l => l.length
decreasing_by simp only [List.length_drop, List.length_cons]; omega

/-- OCRService.batch_process: the input is processed in consecutive groups
of max_concurrent items; within a group every item is submitted, then, if
wait_for_all, every submitted job of the group is waited for, before the
next group starts. A per-item exception propagates and aborts the call. -/
def batch_process (cap : Nat) (wait_for_all : Bool) :
    List SyncItem → List BatchEv × Except ClientError (List BatchOut)
  | [] => ([], .ok [])
  | it :: rest =>
    let chunk := it :: rest.take (cap - 1)
    let rest2 := rest.drop (cap - 1)
    match submitChunk chunk with
    | (tr, .error e) => (tr, .error e)
    | (tr, .ok jobs) =>
      if wait_for_all then
        match waitChunk chunk with
        | (tw, .error e) => (tr ++ tw, .error e)
        | (tw, .ok results) =>
          let tailRes := batch_process cap wait_for_all rest2
          (tr ++ tw ++ tailRes.1, tailRes.2.map (fun l => results.map .inr ++ l))
      else
        let tailRes := batch_process cap wait_for_all rest2
        (tr ++ tailRes.1, tailRes.2.map (fun l => jobs.map .inl ++ l))
termination_by l => l.length
decreasing_by simp only [List.length_drop, List.length_cons]; omega

/-
  Theorems. Helper lemmas come first; each claim is settled by exactly one
  theorem named after it.
-/

/-- A successful enum value lookup returns the member whose value is the
looked-up string. -/
lemma statusOfValue_value {s : String} {e : JobStatus} (h : statusOfValue s = some e) :
    e.value = s := by
  unfold statusOfValue at h
  split at h
  case h_6 => exact Option.noConfusion h
  all_goals (injection h with h2; subst h2; rfl)

/-- Every JobStatus member is one of the five named members. -/
lemma jobStatus_mem_closed_set (e : JobStatus) :
    e ∈ [JobStatus.pending, .processing, .completed, .failed, .cancelled] := by
  cases e <;> simp

/-- C7: validate_job_result r is true exactly when the status compares
equal to the completed member, the error_message is absent (None or empty,
Python truthiness), and at least one of data, pages is populated
(non-None and non-empty); in particular the four concrete examples of the
specification evaluate as stated. -/
theorem C7_validate_job_result_iff :
    (∀ r : JobResult,
      validate_job_result r =
        (pyStatusEqStatus r.status .completed && !pyTruthyOptStr r.error_message &&
          (pyTruthyDict r.data || pyTruthyPages r.pages)))
    ∧ validate_job_result (JobResult.make "job" (.inl .completed) (some [("x", 1)])
        none none none none none none) = true
    ∧ validate_job_result (JobResult.make "job" (.inl .processing) (some [("x", 1)])
        none none none none none none) = false
    ∧ validate_job_result (JobResult.make "job" (.inl .completed) none none none none
        (some "boom") none none) = false
    ∧ validate_job_result (JobResult.make "job" (.inl .completed) none none none none
        none none none) = false := by
  refine ⟨fun r => ?_, by decide, by decide, by decide, by decide⟩
  unfold validate_job_result
  split_ifs with h1 h2 h3 <;> simp_all
  cases hd : pyTruthyDict r.data <;> simp_all

/-- C2: the status-code-to-error mapping is total and deterministic, both
in LeapOCRClient._handle_api_error and in
LeapOCRExceptionMapper.map_exception: 401 and 403 map to the
authentication kind, 404 to not-found, 422 to validation, 429 to
rate-limit, every code in 500-599 to server, and any other code or an
absent code to the generic client kind; and is_retryable is true exactly
for the server, rate-limit, timeout and upload kinds. -/
theorem C2_error_mapping_and_retryability :
    (∀ e : ApiErrorInfo,
      (handle_api_error e).1 =
        (match e.status with
         | some c =>
           if c = 401 ∨ c = 403 then ErrKind.authentication
           else if c = 404 then ErrKind.notFound
           else if c = 422 then ErrKind.validation
           else if c = 429 then ErrKind.rateLimit
           else if 500 ≤ c ∧ c < 600 then ErrKind.server
           else ErrKind.client
         | none => ErrKind.client)
      ∧ (map_exception e).1 = (handle_api_error e).1)
    ∧ (∀ k : ErrKind,
      k.is_retryable =
        decide (k = .server ∨ k = .rateLimit ∨ k = .timeout ∨ k = .upload)) := by
  refine ⟨fun e => ?_, fun k => by cases k <;> rfl⟩
  obtain ⟨st, b, r⟩ := e
  cases st with
  | none => exact ⟨rfl, rfl⟩
  | some c =>
    by_cases h1 : c = 401 <;> by_cases h2 : c = 403 <;> by_cases h3 : c = 404 <;>
      by_cases h4 : c = 422 <;> by_cases h5 : c = 429 <;> by_cases h6 : c = 0 <;>
      by_cases h7 : 500 ≤ c ∧ c < 600 <;>
      refine ⟨?_, ?_⟩ <;>
      simp_all [handle_api_error, map_exception, pyTruthyOptInt] <;>
      (try split_ifs <;> simp_all)

/-- C8: constructing a Job, JobStatusInfo or JobResult with a status
string s coerces the field to the member of the closed JobStatus set that
s names (the source lowercases s before the enum lookup) and otherwise —
when the lookup raises ValueError — preserves s verbatim; the ValueError
is swallowed, so construction itself never raises. -/
theorem C8_status_string_preserved :
    ∀ (id s : String),
      (∀ e, statusOfValue (pyToLower s) = some e →
        (Job.make id (.inr s) none).status = .inl e
        ∧ (JobStatusInfo.make id (.inr s) none none none none).status = .inl e
        ∧ (JobResult.make id (.inr s) none none none none none none none).status = .inl e
        ∧ e ∈ [JobStatus.pending, .processing, .completed, .failed, .cancelled]
        ∧ e.value = pyToLower s)
      ∧ (∀ pe, jobStatusCall (pyToLower s) = .error pe →
        (Job.make id (.inr s) none).status = .inr s
        ∧ (JobStatusInfo.make id (.inr s) none none none none).status = .inr s
        ∧ (JobResult.make id (.inr s) none none none none none none none).status = .inr s) := by
  intro id s
  constructor
  · intro e he
    have hc : jobStatusCall (pyToLower s) = .ok e := by
      unfold jobStatusCall
      rw [he]
    refine ⟨?_, ?_, ?_, jobStatus_mem_closed_set e, statusOfValue_value he⟩ <;>
      simp [Job.make, JobStatusInfo.make, JobResult.make, coerceStatus, hc]
  · intro pe hpe
    simp [Job.make, JobStatusInfo.make, JobResult.make, coerceStatus, hpe]

/-- C8 witness: a string naming a status case-insensitively is coerced to
the enum member, and an unrecognized string is kept verbatim. -/
theorem C8_status_string_preserved_witness :
    (Job.make "id" (.inr "COMPLETED") none).status = .inl JobStatus.completed
    ∧ (Job.make "id" (.inr "weird") none).status = .inr "weird" :=
  ⟨((C8_status_string_preserved "id" "COMPLETED").1 .completed rfl).1,
   ((C8_status_string_preserved "id" "weird").2
     (.valueError ("weird" ++ " is not a valid JobStatus")) rfl).1⟩

/-- One unrolling of the wait_for_result loop body. -/
lemma pollAux_succ (statusQ : Nat → Except ClientError JobStatusInfo)
    (resultQ : Except ClientError JobResult) (job_id : String)
    (tmo : Option ℚ) (p : ℚ) (fuel n : Nat) (elapsed : ℚ) :
    pollAux statusQ resultQ job_id tmo p (fuel + 1) n elapsed =
      (match statusQ n with
       | .error e => ([.query n], .err e)
       | .ok st =>
         if statusInTerminalList st.status then
           match resultQ with
           | .error e => ([.query n, .resultQuery], .err e)
           | .ok r => ([.query n, .resultQuery], .ok r)
         else if timeoutCheck tmo elapsed then
           ([.query n], .timeoutErr job_id (tmo.getD 0))
         else
           let rest := pollAux statusQ resultQ job_id tmo p fuel (n + 1) (elapsed + p)
           (.query n :: .sleepEv :: rest.1, rest.2)) := rfl

/-- One unrolling of the wait_for_result_async loop body. -/
lemma pollAuxAsync_succ (statusQ : Nat → Except ClientError JobStatusInfo)
    (resultQ : Except ClientError JobResult) (job_id : String)
    (tmo : Option ℚ) (p : ℚ) (fuel n : Nat) (elapsed : ℚ) :
    pollAuxAsync statusQ resultQ job_id tmo p (fuel + 1) n elapsed =
      (match statusQ n with
       | .error e => ([.query n], .err e)
       | .ok st =>
         if statusInTerminalList st.status then
           match resultQ with
           | .error e => ([.query n, .resultQuery], .err e)
           | .ok r => ([.query n, .resultQuery], .ok r)
         else if timeoutCheck tmo elapsed then
           ([.query n], .timeoutErr job_id (tmo.getD 0))
         else
           let rest := pollAuxAsync statusQ resultQ job_id tmo p fuel (n + 1) (elapsed + p)
           (.query n :: .sleepEv :: rest.1, rest.2)) := rfl

/-- C1: the model of LeapOCRClient.get_job_status raises on every
transport reply. On a transport error it raises the typed error of
_handle_api_error (every ErrKind models a subclass of LeapOCRClientError);
on a successful reply the keyword-argument call to the JobStatus enum
class raises TypeError, which the generic handler wraps in the generic
client error. Consequently a polling loop whose first status query raises
e stops at once with e: its run is one query, no sleep and no result
query, for wait_for_result and wait_for_result_async alike. -/
theorem C1_get_job_status_always_raises :
    (∀ t : Except ApiErrorInfo StatusData, ∃ e, get_job_status t = .error e)
    ∧ (∀ d : StatusData, ∃ m, get_job_status (.ok d) = .error (.client, m))
    ∧ (∀ statusQ resultQ job_id tmo p e fuel, statusQ 0 = .error e →
        wait_for_result statusQ resultQ job_id tmo p (fuel + 1) = ([.query 0], .err e)
        ∧ wait_for_result_async statusQ resultQ job_id tmo p (fuel + 1)
            = ([.query 0], .err e)) := by
  have hok : ∀ d : StatusData, ∃ m, get_job_status (.ok d) = .error (.client, m) := by
    intro d
    exact ⟨"Unexpected error getting job status: EnumMeta.__call__ got an unexpected keyword argument", rfl⟩
  refine ⟨fun t => ?_, hok, fun statusQ resultQ job_id tmo p e fuel h => ?_⟩
  · match t with
    | .error e => exact ⟨handle_api_error e, rfl⟩
    | .ok d =>
      obtain ⟨m, hm⟩ := hok d
      exact ⟨(.client, m), hm⟩
  · constructor
    · show pollAux _ _ _ _ _ (fuel + 1) 0 0 = _
      rw [pollAux_succ, h]
    · show pollAuxAsync _ _ _ _ _ (fuel + 1) 0 0 = _
      rw [pollAuxAsync_succ, h]

/-- C1 witness: a concrete well-formed successful status payload still
produces an error, and a polling run whose first query raises stops with
that error after exactly one query. -/
theorem C1_get_job_status_always_raises_witness :
    (∃ e, get_job_status (.ok ⟨"job-1", "pending", none, none, none, none⟩) = .error e)
    ∧ wait_for_result (fun _ => .error (.client, "boom"))
        (.error (.client, "boom")) "job-1" none 2 (4 + 1)
        = ([.query 0], .err (.client, "boom")) :=
  ⟨C1_get_job_status_always_raises.1 (.ok ⟨"job-1", "pending", none, none, none, none⟩),
   (C1_get_job_status_always_raises.2.2 (fun _ => .error (.client, "boom"))
     (.error (.client, "boom")) "job-1" none 2 (.client, "boom") 4 rfl).1⟩

/-- The outcome wait_for_result hands back once a terminal status has been
observed: exactly what the result query (get_job_result) produced. -/
def resultOutcome : Except ClientError JobResult → PollOutcome
  | .ok r => .ok r
  | .error e => .err e

/-- A terminal enum status passes the terminal-list membership test. -/
lemma terminal_mem_list {S : JobStatus}
    (hS : S ∈ [JobStatus.completed, .failed, .cancelled]) :
    statusInTerminalList (.inl S) = true := by
  fin_cases hS <;> rfl

/-- C3: whenever some status query of the polling loop returns a terminal
status S (completed, failed or cancelled), the loop at that iteration —
whatever the iteration index and however much of the deadline has already
elapsed — performs the result query at once and stops: no further status
query, no sleep, and the outcome is exactly what get_job_result returned.
This holds for the blocking and the cooperative loop alike. -/
theorem C3_terminal_status_halts_polling :
    ∀ statusQ resultQ job_id tmo p fuel n elapsed st S,
      statusQ n = .ok st → st.status = .inl S →
      S ∈ [JobStatus.completed, .failed, .cancelled] →
      pollAux statusQ resultQ job_id tmo p (fuel + 1) n elapsed
          = ([.query n, .resultQuery], resultOutcome resultQ)
        ∧ pollAuxAsync statusQ resultQ job_id tmo p (fuel + 1) n elapsed
          = ([.query n, .resultQuery], resultOutcome resultQ) := by
  intro statusQ resultQ job_id tmo p fuel n elapsed st S hq hst hS
  have hterm : statusInTerminalList st.status = true := by
    rw [hst]; exact terminal_mem_list hS
  constructor
  · rw [pollAux_succ, hq]
    simp only [hterm, if_true]
    cases resultQ <;> rfl
  · rw [pollAuxAsync_succ, hq]
    simp only [hterm, if_true]
    cases resultQ <;> rfl

/-- C3 witness: a run whose third status query reports completed stops
right there and returns the fetched result. -/
theorem C3_terminal_status_halts_polling_witness :
    pollAux (fun _ => .ok (JobStatusInfo.make "j" (.inr "completed") none none none none))
        (.ok (JobResult.make "j" (.inl .completed) (some [("x", 1)]) none none none none none none))
        "j" (some 1) 2 (7 + 1) 2 100
      = ([.query 2, .resultQuery],
         .ok (JobResult.make "j" (.inl .completed) (some [("x", 1)]) none none none none none none)) :=
  (C3_terminal_status_halts_polling
    (fun _ => .ok (JobStatusInfo.make "j" (.inr "completed") none none none none))
    (.ok (JobResult.make "j" (.inl .completed) (some [("x", 1)]) none none none none none none))
    "j" (some 1) 2 7 2 100
    (JobStatusInfo.make "j" (.inr "completed") none none none none)
    .completed rfl (by decide) (by decide)).1

/-- The blocking and the cooperative polling loop are the same function of
the oracle replies, fuel, iteration index and elapsed time. -/
lemma pollAux_eq_pollAuxAsync (statusQ : Nat → Except ClientError JobStatusInfo)
    (resultQ : Except ClientError JobResult) (job_id : String)
    (tmo : Option ℚ) (p : ℚ) :
    ∀ (fuel : Nat) (n : Nat) (elapsed : ℚ),
      pollAux statusQ resultQ job_id tmo p fuel n elapsed
        = pollAuxAsync statusQ resultQ job_id tmo p fuel n elapsed := by
  intro fuel
  induction fuel with
  | zero => intro n elapsed; rfl
  | succ k ih =>
    intro n elapsed
    rw [pollAux_succ, pollAuxAsync_succ, ih (n + 1) (elapsed + p)]

/-- C9: for every job id, timeout, poll interval and every sequence of
transport replies, the blocking discipline wait_for_result and the
cooperative discipline wait_for_result_async produce identical observable
behavior: the same event trace and the same outcome (the same JobResult or
the same raised error). They differ only in how the idle time between
polls is spent, which the model does not observe. -/
theorem C9_sync_async_equivalence :
    ∀ statusQ resultQ job_id tmo p fuel,
      wait_for_result statusQ resultQ job_id tmo p fuel
        = wait_for_result_async statusQ resultQ job_id tmo p fuel := by
  intro statusQ resultQ job_id tmo p fuel
  exact pollAux_eq_pollAuxAsync statusQ resultQ job_id tmo p fuel 0 0

/-- No run of the polling loop ever records a remote cancellation
request: the loop's only effects are status queries, sleeps and the final
result query. -/
lemma pollAux_cancel_free (statusQ : Nat → Except ClientError JobStatusInfo)
    (resultQ : Except ClientError JobResult) (job_id : String)
    (tmo : Option ℚ) (p : ℚ) :
    ∀ (fuel n : Nat) (elapsed : ℚ),
      PollEv.cancelJob ∉ (pollAux statusQ resultQ job_id tmo p fuel n elapsed).1 := by
  intro fuel
  induction fuel with
  | zero => intro n elapsed; simp [pollAux]
  | succ k ih =>
    intro n elapsed
    rw [pollAux_succ]
    cases hq : statusQ n with
    | error e => simp
    | ok st =>
      by_cases h1 : statusInTerminalList st.status
      · cases resultQ <;> simp [h1]
      · by_cases h2 : timeoutCheck tmo elapsed
        · simp [h1, h2]
        · simpa [h1, h2] using ih (n + 1) (elapsed + p)

/-- If every status query reports a non-terminal status, the loop with a
truthy timeout t reaches the deadline check with elapsed time above t
within finitely many iterations and stops with the timeout error carrying
the job id and t, from any start state: induction on an upper bound m on
the number of remaining sleeps. -/
lemma pollAux_timeout_run (statusQ : Nat → Except ClientError JobStatusInfo)
    (resultQ : Except ClientError JobResult) (job_id : String) (t p : ℚ)
    (ht : 0 < t)
    (hs : ∀ k, ∃ st, statusQ k = .ok st ∧ statusInTerminalList st.status = false) :
    ∀ (m n : Nat) (elapsed : ℚ), t < elapsed + m * p →
      ∃ fuel tr, pollAux statusQ resultQ job_id (some t) p fuel n elapsed
        = (tr, .timeoutErr job_id t) := by
  have hstep : ∀ (n : Nat) (elapsed : ℚ), t < elapsed →
      pollAux statusQ resultQ job_id (some t) p (0 + 1) n elapsed
        = ([.query n], .timeoutErr job_id t) := by
    intro n elapsed hgt
    obtain ⟨st, hq, hterm⟩ := hs n
    rw [pollAux_succ, hq]
    have hchk : timeoutCheck (some t) elapsed = true := by
      simp [timeoutCheck, ht.ne', hgt]
    simp [hterm, hchk]
  intro m
  induction m with
  | zero =>
    intro n elapsed hlt
    refine ⟨0 + 1, [.query n], hstep n elapsed ?_⟩
    simpa using hlt
  | succ k ih =>
    intro n elapsed hlt
    by_cases hgt : t < elapsed
    · exact ⟨0 + 1, [.query n], hstep n elapsed hgt⟩
    · obtain ⟨st, hq, hterm⟩ := hs n
      obtain ⟨fuel, tr, hrun⟩ := ih (n + 1) (elapsed + p) (by push_cast at hlt ⊢; linarith)
      refine ⟨fuel + 1, .query n :: .sleepEv :: tr, ?_⟩
      rw [pollAux_succ, hq]
      have hchk : timeoutCheck (some t) elapsed = false := by
        simp [timeoutCheck]
        intro _
        exact le_of_not_lt hgt
      simp [hterm, hchk, hrun]

/-- C4: if every status query reports a non-terminal status and the
caller supplied a positive timeout t and positive poll interval, the
blocking poller does not loop forever: some finite unrolling ends by
raising the timeout error that carries the job id and the configured
value t, and no run — of any length — ever issues a remote cancellation
request. -/
theorem C4_nonterminal_polling_times_out
    (statusQ : Nat → Except ClientError JobStatusInfo)
    (resultQ : Except ClientError JobResult) (job_id : String) (t p : ℚ)
    (ht : 0 < t) (hp : 0 < p)
    (hs : ∀ k, ∃ st, statusQ k = .ok st ∧ statusInTerminalList st.status = false) :
    (∃ fuel tr, wait_for_result statusQ resultQ job_id (some t) p fuel
        = (tr, .timeoutErr job_id t))
    ∧ ∀ fuel, PollEv.cancelJob ∉ (wait_for_result statusQ resultQ job_id (some t) p fuel).1 := by
  constructor
  · obtain ⟨m, hm⟩ := exists_nat_gt (t / p)
    have hmp : t < 0 + m * p := by
      rw [zero_add]
      exact (div_lt_iff₀ hp).mp hm
    obtain ⟨fuel, tr, h⟩ :=
      pollAux_timeout_run statusQ resultQ job_id t p ht hs m 0 0 hmp
    exact ⟨fuel, tr, h⟩
  · intro fuel
    exact pollAux_cancel_free statusQ resultQ job_id (some t) p fuel 0 0

/-- C4 witness: a job that keeps reporting processing against a timeout of
1 and poll interval 1 ends in the timeout error carrying the job id and 1. -/
theorem C4_nonterminal_polling_times_out_witness :
    ∃ fuel tr, wait_for_result
        (fun _ => .ok (JobStatusInfo.make "j" (.inr "processing") none none none none))
        (.error (.client, "down")) "j" (some 1) 1 fuel
      = (tr, .timeoutErr "j" 1) :=
  (C4_nonterminal_polling_times_out
    (fun _ => .ok (JobStatusInfo.make "j" (.inr "processing") none none none none))
    (.error (.client, "down")) "j" 1 1 (by norm_num) (by norm_num)
    (fun _ => ⟨JobStatusInfo.make "j" (.inr "processing") none none none none,
      rfl, rfl⟩)).1

/-- With timeout None the deadline check never fires, so no run ends in
the timeout error. -/
lemma pollAux_none_no_timeout (statusQ : Nat → Except ClientError JobStatusInfo)
    (resultQ : Except ClientError JobResult) (job_id : String) (p : ℚ) :
    ∀ (fuel n : Nat) (elapsed : ℚ) (jid : String) (tv : ℚ),
      (pollAux statusQ resultQ job_id none p fuel n elapsed).2 ≠ .timeoutErr jid tv := by
  intro fuel
  induction fuel with
  | zero => intro n elapsed jid tv; simp [pollAux]
  | succ k ih =>
    intro n elapsed jid tv
    rw [pollAux_succ]
    cases hq : statusQ n with
    | error e => simp
    | ok st =>
      by_cases h1 : statusInTerminalList st.status
      · cases resultQ <;> simp [h1]
      · simpa [h1, timeoutCheck] using ih (n + 1) (elapsed + p) jid tv

/-- A timeout of 0 is falsy in Python, so the loop behaves exactly as
with timeout None, from any start state. -/
lemma pollAux_zero_eq_none (statusQ : Nat → Except ClientError JobStatusInfo)
    (resultQ : Except ClientError JobResult) (job_id : String) (p : ℚ) :
    ∀ (fuel n : Nat) (elapsed : ℚ),
      pollAux statusQ resultQ job_id (some 0) p fuel n elapsed
        = pollAux statusQ resultQ job_id none p fuel n elapsed := by
  intro fuel
  induction fuel with
  | zero => intro n elapsed; rfl
  | succ k ih =>
    intro n elapsed
    simp only [pollAux_succ]
    cases hq : statusQ n with
    | error e => rfl
    | ok st =>
      by_cases h1 : statusInTerminalList st.status
      · simp [h1]
      · simp [h1, timeoutCheck, ih (n + 1) (elapsed + p)]

/-- C10: calling the poller with timeout 0 disables the deadline — the
Python truthiness test skips the deadline check — so the run coincides
with the timeout-None run, in the blocking and the cooperative
discipline alike, and never ends in the timeout error no matter how much
time elapses; unlike every strictly positive timeout, for which a run
ending in the timeout error exists. -/
theorem C10_zero_timeout_disables_deadline :
    (∀ statusQ resultQ job_id p fuel,
      wait_for_result statusQ resultQ job_id (some 0) p fuel
          = wait_for_result statusQ resultQ job_id none p fuel
        ∧ wait_for_result_async statusQ resultQ job_id (some 0) p fuel
          = wait_for_result_async statusQ resultQ job_id none p fuel)
    ∧ (∀ statusQ resultQ job_id p fuel jid tv,
      (wait_for_result statusQ resultQ job_id (some 0) p fuel).2
        ≠ PollOutcome.timeoutErr jid tv)
    ∧ (∀ t : ℚ, 0 < t → ∃ statusQ resultQ job_id p fuel tr,
      wait_for_result statusQ resultQ job_id (some t) p fuel
        = (tr, .timeoutErr job_id t)) := by
  refine ⟨fun statusQ resultQ job_id p fuel => ⟨?_, ?_⟩,
    fun statusQ resultQ job_id p fuel jid tv => ?_, fun t ht => ?_⟩
  · exact pollAux_zero_eq_none statusQ resultQ job_id p fuel 0 0
  · show pollAuxAsync statusQ resultQ job_id (some 0) p fuel 0 0
        = pollAuxAsync statusQ resultQ job_id none p fuel 0 0
    rw [← pollAux_eq_pollAuxAsync, ← pollAux_eq_pollAuxAsync]
    exact pollAux_zero_eq_none statusQ resultQ job_id p fuel 0 0
  · rw [wait_for_result, pollAux_zero_eq_none]
    exact pollAux_none_no_timeout statusQ resultQ job_id p fuel 0 0 jid tv
  · refine ⟨fun _ => .ok (JobStatusInfo.make "j" (.inr "pending") none none none none),
      .error (.client, "x"), "j", t, ?_⟩
    obtain ⟨m, hm⟩ := exists_nat_gt (t / t)
    have hmp : t < 0 + m * t := by
      rw [zero_add]
      exact (div_lt_iff₀ ht).mp hm
    obtain ⟨fuel, tr, h⟩ := pollAux_timeout_run
      (fun _ => .ok (JobStatusInfo.make "j" (.inr "pending") none none none none))
      (.error (.client, "x")) "j" t t ht
      (fun _ => ⟨JobStatusInfo.make "j" (.inr "pending") none none none none, rfl, rfl⟩)
      m 0 0 hmp
    exact ⟨fuel, tr, h⟩

/-- C10 witness: with timeout 1 (a strictly positive timeout) a run ending
in the timeout error exists, instantiating the contrast part of C10. -/
theorem C10_zero_timeout_disables_deadline_witness :
    ∃ statusQ resultQ job_id p fuel tr,
      wait_for_result statusQ resultQ job_id (some 1) p fuel
        = (tr, .timeoutErr job_id 1) :=
  C10_zero_timeout_disables_deadline.2.2 1 (by norm_num)

/-- The error-to-result conversion of batch_process_async preserves the
length of the gathered list. -/
lemma fixupBatchResults_length :
    ∀ (i : Nat) (outs : List (Except String BatchOut)),
      (fixupBatchResults i outs).length = outs.length := by
  intro i outs
  induction outs generalizing i with
  | nil => rfl
  | cons o rest ih => simp [fixupBatchResults, ih]

/-- An item whose processing returned normally is passed through at its
own position by the conversion loop of batch_process_async. -/
lemma fixupBatchResults_get_ok :
    ∀ (outs : List (Except String BatchOut)) (i k : Nat) (v : BatchOut),
      outs[k]? = some (.ok v) → (fixupBatchResults i outs)[k]? = some v := by
  intro outs
  induction outs with
  | nil => intro i k v h; simp at h
  | cons o rest ih =>
    intro i k v h
    cases k with
    | zero =>
      simp only [List.getElem?_cons_zero, Option.some.injEq] at h
      subst h
      simp [fixupBatchResults]
    | succ k2 =>
      simp only [List.getElem?_cons_succ] at h
      simpa [fixupBatchResults] using ih (i + 1) k2 v h

/-- An item whose processing raised is replaced, at its own position, by
the synthetic failed JobResult built by batch_process_async. -/
lemma fixupBatchResults_get_err :
    ∀ (outs : List (Except String BatchOut)) (i k : Nat) (msg : String),
      outs[k]? = some (.error msg) →
      (fixupBatchResults i outs)[k]?
        = some (.inr (JobResult.make ("error_" ++ toString (i + k)) (.inl .failed)
            none none none none (some msg) none none)) := by
  intro outs
  induction outs with
  | nil => intro i k msg h; simp at h
  | cons o rest ih =>
    intro i k msg h
    cases k with
    | zero =>
      simp only [List.getElem?_cons_zero, Option.some.injEq] at h
      subst h
      simp [fixupBatchResults]
    | succ k2 =>
      simp only [List.getElem?_cons_succ] at h
      rw [show i + (k2 + 1) = (i + 1) + k2 from by omega]
      simpa [fixupBatchResults] using ih (i + 1) k2 msg h

/-- C5: in the cooperative batch variant, an item whose processing raised
an exception does not abort the batch: the output keeps the input length,
position i of the output is a JobResult with status failed, error_message
equal to the exception's message, and the synthetic job id "error_" ++ i
(which contains the literal text "error", unlike a real job id), and every
item that returned normally keeps its own value at its own position. -/
theorem C5_async_batch_isolates_failures :
    ∀ (outcomes : List (Except String BatchOut)) (i : Nat) (msg : String),
      outcomes[i]? = some (Except.error msg) →
      (batch_process_async outcomes).length = outcomes.length
      ∧ (∃ r, (batch_process_async outcomes)[i]? = some (.inr r)
          ∧ r.job_id = "error_" ++ toString i
          ∧ (∃ rest2, r.job_id = "error" ++ rest2)
          ∧ r.status = .inl JobStatus.failed
          ∧ r.error_message = some msg)
      ∧ (∀ (j : Nat) (v : BatchOut), outcomes[j]? = some (Except.ok v) →
          (batch_process_async outcomes)[j]? = some v) := by
  intro outcomes i msg h
  simp only [batch_process_async]
  refine ⟨fixupBatchResults_length 0 outcomes, ?_,
    fun j v hv => fixupBatchResults_get_ok outcomes 0 j v hv⟩
  refine ⟨JobResult.make ("error_" ++ toString i) (.inl .failed)
      none none none none (some msg) none none,
    ?_, rfl, ⟨"_" ++ toString i, ?_⟩, rfl, rfl⟩
  · simpa using fixupBatchResults_get_err outcomes 0 i msg h
  · rw [show ("error_" : String) = "error" ++ "_" from rfl, String.append_assoc]
    rfl

/-- C5 witness: in a two-item batch whose second item raised with message
boom, the second output is the synthetic failed JobResult carrying boom. -/
theorem C5_async_batch_isolates_failures_witness :
    ∃ r, (batch_process_async
        [.ok (.inl (Job.make "a" (.inl .pending) none)), .error "boom"])[1]?
      = some (.inr r) ∧ r.job_id = "error_" ++ toString 1
      ∧ r.status = .inl JobStatus.failed ∧ r.error_message = some "boom" := by
  obtain ⟨hl, ⟨r, h1, h2, h3, h4, h5⟩, hok⟩ :=
    C5_async_batch_isolates_failures
      [.ok (.inl (Job.make "a" (.inl .pending) none)), .error "boom"] 1 "boom" rfl
  exact ⟨r, h1, h2, h4, h5⟩

/-- An item of the thread/group batch variant whose submission and wait
both succeed, with the given values. -/
def mkOkItem (p : Job × JobResult) : SyncItem := ⟨.ok p.1, .ok p.2⟩

/-- Submitting a group of all-successful items emits one submission event
per item, in order, and collects the jobs in order. -/
lemma submitChunk_map_ok : ∀ ps : List (Job × JobResult),
    submitChunk (ps.map mkOkItem)
      = ((ps.map mkOkItem).map BatchEv.submitEv, .ok (ps.map Prod.fst)) := by
  intro ps
  induction ps with
  | nil => rfl
  | cons p rest ih => simp [submitChunk, mkOkItem, ih, Except.map]

/-- Waiting for a group of all-successful items emits one wait event per
item, in order, and collects the results in order. -/
lemma waitChunk_map_ok : ∀ ps : List (Job × JobResult),
    waitChunk (ps.map mkOkItem)
      = ((ps.map mkOkItem).map BatchEv.waitEv, .ok (ps.map Prod.snd)) := by
  intro ps
  induction ps with
  | nil => rfl
  | cons p rest ih => simp [waitChunk, mkOkItem, ih, Except.map]

/-- The Python slicing partition is a partition: its groups concatenate
back to the input list, in order. -/
lemma chunkList_flatten {α : Type} (cap : Nat) :
    ∀ l : List α, (chunkList cap l).flatten = l := by
  intro l
  induction l using chunkList.induct cap with
  | case1 => rw [chunkList]; rfl
  | case2 a l ih =>
    rw [chunkList]
    simp only [List.flatten_cons, List.cons_append]
    rw [ih, List.take_append_drop]

/-- For cap at least 1, every group of the Python slicing partition has at
most cap elements. -/
lemma chunkList_sizes {α : Type} (cap : Nat) (hcap : 1 ≤ cap) :
    ∀ (l : List α) g, g ∈ chunkList cap l → g.length ≤ cap := by
  intro l
  induction l using chunkList.induct cap with
  | case1 => intro g hg; rw [chunkList] at hg; simp at hg
  | case2 a l ih =>
    intro g hg
    rw [chunkList] at hg
    rcases List.mem_cons.mp hg with h | h
    · subst h
      simp only [List.length_cons, List.length_take]
      omega
    · exact ih g h

/-- When every item's submission and wait succeed, batch_process produces
the trace of the consecutive groups — all submissions of a group, then,
when wait_for_all, all waits of that group, before the next group — and
returns the per-item values in input order. -/
lemma batch_process_all_ok (cap : Nat) :
    ∀ (ps : List (Job × JobResult)) (wfa : Bool),
      batch_process cap wfa (ps.map mkOkItem)
        = (((chunkList cap ps).map (fun g =>
              (g.map mkOkItem).map BatchEv.submitEv
              ++ if wfa then (g.map mkOkItem).map BatchEv.waitEv else [])).flatten,
           .ok (ps.map (fun p => if wfa then Sum.inr p.2 else Sum.inl p.1))) := by
  intro ps
  induction ps using chunkList.induct cap with
  | case1 =>
    intro wfa
    show batch_process cap wfa [] = _
    rw [chunkList, batch_process]
    rfl
  | case2 p rest ih =>
    intro wfa
    rw [chunkList]
    show batch_process cap wfa (mkOkItem p :: rest.map mkOkItem) = _
    rw [batch_process.eq_def]
    simp only []
    rw [show (rest.map mkOkItem).take (cap - 1) = (rest.take (cap - 1)).map mkOkItem from
        List.map_take mkOkItem rest (cap - 1) |>.symm]
    rw [show (rest.map mkOkItem).drop (cap - 1) = (rest.drop (cap - 1)).map mkOkItem from
        List.map_drop mkOkItem rest (cap - 1) |>.symm]
    rw [show mkOkItem p :: (rest.take (cap - 1)).map mkOkItem
        = (p :: rest.take (cap - 1)).map mkOkItem from rfl]
    rw [submitChunk_map_ok, waitChunk_map_ok, ih wfa]
    cases wfa with
    | false =>
      simp [Except.map, List.map_map, Function.comp, List.flatten_cons]
      rw [show (Sum.inl ∘ Prod.fst : Job × JobResult → BatchOut)
          = (fun p => Sum.inl p.1) from rfl, List.take_append_drop]
    | true =>
      simp [Except.map, List.map_map, Function.comp, List.flatten_cons, List.append_assoc]
      rw [show (Sum.inr ∘ Prod.snd : Job × JobResult → BatchOut)
          = (fun p => Sum.inr p.2) from rfl, List.take_append_drop]

/-- C6 counterexample: the claim asserts that both batch variants return
an output list of the input's length regardless of per-item failure, but
in the thread/group variant a per-item failure propagates: for a
one-element input whose wait raises a server error, batch_process raises
that error and returns no list at all. -/
theorem C6_counterexample_sync_failure_aborts :
    (batch_process 1 true
      [⟨.ok (Job.make "a" (.inl .pending) none), .error (.server, "boom")⟩]).2
      = .error (.server, "boom") := by
  simp [batch_process, submitChunk, waitChunk, Except.map]

/-- C6 amended: the cooperative variant returns an output list of the
input's length with output j corresponding to input j regardless of
per-item failure; the thread/group variant does so whenever no item fails
(a per-item failure propagates and aborts the call, see the
counterexample), and it partitions the input into consecutive groups of
size at most the cap — the groups concatenate back to the input — fully
processing one group (all submissions, then, if wait_for_all, all waits)
before starting the next. -/
theorem C6_batch_order_and_grouping (cap : Nat) (hcap : 1 ≤ cap) :
    (∀ outcomes : List (Except String BatchOut),
      (batch_process_async outcomes).length = outcomes.length
      ∧ (∀ (j : Nat) (v : BatchOut), outcomes[j]? = some (Except.ok v) →
          (batch_process_async outcomes)[j]? = some v)
      ∧ (∀ (j : Nat) (m : String), outcomes[j]? = some (Except.error m) →
          (batch_process_async outcomes)[j]?
            = some (.inr (JobResult.make ("error_" ++ toString j) (.inl .failed)
                none none none none (some m) none none))))
    ∧ (∀ (ps : List (Job × JobResult)) (wfa : Bool),
        batch_process cap wfa (ps.map mkOkItem)
          = (((chunkList cap ps).map (fun g =>
                (g.map mkOkItem).map BatchEv.submitEv
                ++ if wfa then (g.map mkOkItem).map BatchEv.waitEv else [])).flatten,
             .ok (ps.map (fun p => if wfa then Sum.inr p.2 else Sum.inl p.1))))
    ∧ (∀ l : List SyncItem, (chunkList cap l).flatten = l
        ∧ ∀ g ∈ chunkList cap l, g.length ≤ cap) := by
  refine ⟨fun outcomes => ?_, batch_process_all_ok cap,
    fun l => ⟨chunkList_flatten cap l, chunkList_sizes cap hcap l⟩⟩
  simp only [batch_process_async]
  exact ⟨fixupBatchResults_length 0 outcomes,
    fun j v hv => fixupBatchResults_get_ok outcomes 0 j v hv,
    fun j m hm => by simpa using fixupBatchResults_get_err outcomes 0 j m hm⟩

/-- C6 witness: with cap 2 and a concrete three-item list, the partition
concatenates back to the input and every group has at most two items. -/
theorem C6_batch_order_and_grouping_witness :
    (chunkList 2 [SyncItem.mk (.error (.client, "e")) (.error (.client, "e")),
        SyncItem.mk (.error (.client, "f")) (.error (.client, "f")),
        SyncItem.mk (.error (.client, "g")) (.error (.client, "g"))]).flatten
      = [SyncItem.mk (.error (.client, "e")) (.error (.client, "e")),
        SyncItem.mk (.error (.client, "f")) (.error (.client, "f")),
        SyncItem.mk (.error (.client, "g")) (.error (.client, "g"))]
    ∧ ∀ g ∈ chunkList 2 [SyncItem.mk (.error (.client, "e")) (.error (.client, "e")),
        SyncItem.mk (.error (.client, "f")) (.error (.client, "f")),
        SyncItem.mk (.error (.client, "g")) (.error (.client, "g"))], g.length ≤ 2 :=
  (C6_batch_order_and_grouping 2 (by norm_num)).2.2
    [SyncItem.mk (.error (.client, "e")) (.error (.client, "e")),
     SyncItem.mk (.error (.client, "f")) (.error (.client, "f")),
     SyncItem.mk (.error (.client, "g")) (.error (.client, "g"))]

end LeapOCR
